import Mathlib

/-!
Verification of the Nextcloud CalDAV event-formatter (`src/main.py`).

Shallow embedding notes.

* A VEVENT component is modelled by the three properties the program reads
  or writes: `SUMMARY`, `TRANSP`, `COLOR`, each optional (absent = `none`).
  `str(summary_val)` is the identity on our string model.
* Python's regex engine (`re.search(pattern, title, re.I)`) is external to
  the program; it is modelled as an opaque deterministic predicate
  `rm : String → String → Bool` taking the pattern and the title.  Likewise
  `normalize_summary` (two `re.sub` calls) is modelled as an opaque function
  `nm : String → String`.  Every claim proved here concerns the control flow
  of the program around these calls, not regex semantics, so the theorems
  are stated for arbitrary `rm` and `nm`.
* The network is modelled by a `World` record holding the responses the
  server would give to the (at most) two GETs and two PUTs one object can
  trigger.  A GET response is either an HTTP error (`Except.error`) or a
  body (already run through `Calendar.from_ical`, which can itself fail:
  the `parse` field) together with the `ETag` header (absent = `""`,
  matching `r.headers.get("ETag", "").strip('"')`).  A PUT response is its
  HTTP status code.
* An uncaught Python exception escaping `patch_calendar_object` is the
  `Except.error` result of the embedded function; the `main` loop
  (`processItems`) propagates it, aborting the run, exactly as the source
  does (the loop body has no try/except).
-/

structure VEvent where
  summary : Option String
  transp  : Option String
  color   : Option String
deriving DecidableEq, Repr

/-- One entry of the `RULES` list: `(regex_pattern, hex_farbe, make_free_bool)`. -/
structure EventRule where
  pattern  : String
  color    : String
  makeFree : Bool
deriving DecidableEq, Repr

/-- The `RULES` constant of `src/main.py` (pure data; patterns are fed to the
opaque regex oracle). -/
def RULES : List EventRule :=
  [ ⟨"^T8$",   "khaki", true⟩,
    ⟨"^T7$",   "khaki", true⟩,
    ⟨"^T6$",   "khaki", true⟩,
    ⟨"^T5$",   "khaki", true⟩,
    ⟨"^N$",    "khaki", true⟩,
    ⟨"^Teambesprechung$", "khaki", true⟩ ]

/-- The fields of `Config` that the functions under verification consult. -/
structure Config where
  dry_run : Bool := false
  force : Bool := false
  normalize_summary : Bool := true
deriving DecidableEq, Repr

/-- Model of `desired_t = "TRANSPARENT" if make_free else "OPAQUE"`. -/
def desiredTransp (r : EventRule) : String :=
  if r.makeFree then "TRANSPARENT" else "OPAQUE"

/-- The body of the `for pattern, color, make_free in RULES` loop of
`apply_rules_to_event`, executed when `re.search` matched: sets `TRANSP`
(if different) and `COLOR` (if the rule's color is truthy and different),
returning the updated event and the `changed` flag.  Python's string
truthiness (`if color`) is `r.color ≠ ""`. -/
def applyMatchedRule (r : EventRule) (ev : VEvent) : VEvent × Bool :=
  let ev1 := if ev.transp ≠ some (desiredTransp r) then
               { ev with transp := some (desiredTransp r) } else ev
  let ch1 : Bool := decide (ev.transp ≠ some (desiredTransp r))
  let ev2 := if r.color ≠ "" ∧ ev1.color ≠ some r.color then
               { ev1 with color := some r.color } else ev1
  let ch2 : Bool := decide (r.color ≠ "" ∧ ev1.color ≠ some r.color)
  (ev2, ch1 || ch2)

/-- The rule loop of `apply_rules_to_event`: first match wins (`break`),
non-matching rules leave the event untouched. -/
def applyRulesAux (rm : String → String → Bool) (title : String) :
    List EventRule → VEvent → VEvent × Bool × Bool
  | [], ev => (ev, false, false)
  | r :: rest, ev =>
    if rm r.pattern title then
      ((applyMatchedRule r ev).1, true, (applyMatchedRule r ev).2)
    else
      applyRulesAux rm title rest ev

/-- Model of `apply_rules_to_event(vevent, cfg)` of `src/main.py`, returning the
updated event together with `(matched_any_rule, changed_something)`.
`rm` is the regex oracle, `nm` the `normalize_summary` oracle, `rules`
the rule list (the source uses the global `RULES`). -/
def apply_rules_to_event (rm : String → String → Bool) (nm : String → String)
    (rules : List EventRule) (cfg : Config) (ev : VEvent) : VEvent × Bool × Bool :=
  match ev.summary with
  | none => (ev, false, false)
  | some s =>
    applyRulesAux rm (if cfg.normalize_summary then nm s else s) rules ev

/-- A component yielded by `cal.walk()`: either a `VEVENT` or anything else
(`VCALENDAR`, `VTIMEZONE`, ...), which the loop skips and the serializer
round-trips untouched. -/
inductive Comp where
  | vevent (ev : VEvent)
  | other  (name : String)
deriving DecidableEq, Repr

/-- A parsed calendar object (`Calendar.from_ical` result), as the list of
components `walk()` yields. -/
abbrev Cal := List Comp

/-- The `for comp in cal.walk()` loop of `patch_calendar_object`: applies the
rules to every `VEVENT` in place and accumulates `matched_total` and
`changed_total` (the latter counts `changed or cfg.force`). -/
def walkApply (rm : String → String → Bool) (nm : String → String)
    (rules : List EventRule) (cfg : Config) : Cal → Cal × Nat × Nat
  | [] => ([], 0, 0)
  | Comp.other n :: rest =>
    ((Comp.other n) :: (walkApply rm nm rules cfg rest).1,
     (walkApply rm nm rules cfg rest).2)
  | Comp.vevent ev :: rest =>
    (Comp.vevent (apply_rules_to_event rm nm rules cfg ev).1 ::
       (walkApply rm nm rules cfg rest).1,
     (if (apply_rules_to_event rm nm rules cfg ev).2.1 then
        (walkApply rm nm rules cfg rest).2.1 + 1
      else (walkApply rm nm rules cfg rest).2.1),
     (if (apply_rules_to_event rm nm rules cfg ev).2.2 || cfg.force then
        (walkApply rm nm rules cfg rest).2.2 + 1
      else (walkApply rm nm rules cfg rest).2.2))

/-- The run-level `stats` dictionary of `main`. -/
structure Stats where
  checked : Nat := 0
  matched_files : Nat := 0
  already_ok_files : Nat := 0
  updated_files : Nat := 0
  failed_put : Nat := 0
deriving DecidableEq, Repr

/-- One PUT request as issued by `save_ics`: target URL, serialized body
(kept as the in-memory model; `to_ical` is a function of it), and the
`If-Match` header value. -/
structure PutRequest where
  href : String
  body : Cal
  ifMatch : String
deriving DecidableEq, Repr

/-- Model of `r.status_code in (200, 201, 204)`. -/
def okStatus (status : Nat) : Bool :=
  status == 200 || status == 201 || status == 204

/-- The `If-Match` header value of `save_ics`:
`f"\"{etag}\"" if etag else "*"` (Python string truthiness). -/
def ifMatchValue (etag : String) : String :=
  if etag = "" then "*" else "\"" ++ etag ++ "\""

/-- Model of `save_ics(session, abs_href, ics_text, etag, cfg)`: in dry-run mode
returns success without any request; otherwise issues one PUT with the
`If-Match` header and succeeds exactly on status 200/201/204 (412 and all
other statuses alike return `False`, differing only in the log line). -/
def save_ics (href : String) (body : Cal) (etag : String) (status : Nat)
    (cfg : Config) : Bool × List PutRequest :=
  if cfg.dry_run then (true, [])
  else (okStatus status, [⟨href, body, ifMatchValue etag⟩])

/-- A GET response: the `Calendar.from_ical` outcome on the body and the
`ETag` header (already quote-stripped; `""` when absent). -/
structure Fetched where
  parse : Except String Cal
  etag  : String

/-- The server's responses to the at most two GETs and two PUTs one
calendar object can trigger.  `get1`/`put1` answer the first
`load_ics`/`save_ics` pair, `get2`/`put2` the retry pair; an `Except.error`
GET is an `requests.HTTPError`. -/
structure World where
  get1 : Except Unit Fetched
  put1 : Nat
  get2 : Except Unit Fetched
  put2 : Nat

/-- Model of `patch_calendar_object(session, abs_href, etag_hint, cfg, stats)` of
`src/main.py`, returning the updated stats and the list of PUT requests
issued, or `Except.error` when an uncaught exception escapes (the
`Calendar.from_ical(raw)` call on the first fetch is outside every
try/except; in the retry path the bare `except Exception` swallows parse
errors). -/
def patch_calendar_object (rm : String → String → Bool) (nm : String → String)
    (rules : List EventRule) (W : World) (href hint : String) (cfg : Config)
    (s : Stats) : Except String (Stats × List PutRequest) :=
  match W.get1 with
  | Except.error _ => Except.ok (s, [])
  | Except.ok f =>
    match f.parse with
    | Except.error e => Except.error e
    | Except.ok cal =>
      if (walkApply rm nm rules cfg cal).2.1 = 0 then
        Except.ok ({ s with checked := s.checked + 1 }, [])
      else if (walkApply rm nm rules cfg cal).2.2 = 0 ∧ cfg.force = false then
        Except.ok ({ s with matched_files := s.matched_files + 1, already_ok_files := s.already_ok_files + 1 }, [])
      else
        if (save_ics href (walkApply rm nm rules cfg cal).1
              (if f.etag = "" then hint else f.etag) W.put1 cfg).1 then
          Except.ok ({ s with matched_files := s.matched_files + 1, updated_files := s.updated_files + 1 },
            (save_ics href (walkApply rm nm rules cfg cal).1
              (if f.etag = "" then hint else f.etag) W.put1 cfg).2)
        else
          match W.get2 with
          | Except.error _ =>
            Except.ok ({ s with matched_files := s.matched_files + 1 },
              (save_ics href (walkApply rm nm rules cfg cal).1
                (if f.etag = "" then hint else f.etag) W.put1 cfg).2)
          | Except.ok f2 =>
            match f2.parse with
            | Except.error _ =>
              Except.ok ({ s with matched_files := s.matched_files + 1 },
                (save_ics href (walkApply rm nm rules cfg cal).1
                  (if f.etag = "" then hint else f.etag) W.put1 cfg).2)
            | Except.ok cal2 =>
              if (save_ics href (walkApply rm nm rules cfg cal2).1
                    f2.etag W.put2 cfg).1 then
                Except.ok ({ s with matched_files := s.matched_files + 1, updated_files := s.updated_files + 1 },
                  (save_ics href (walkApply rm nm rules cfg cal).1
                    (if f.etag = "" then hint else f.etag) W.put1 cfg).2 ++
                  (save_ics href (walkApply rm nm rules cfg cal2).1
                    f2.etag W.put2 cfg).2)
              else
                Except.ok ({ s with matched_files := s.matched_files + 1, failed_put := s.failed_put + 1 },
                  (save_ics href (walkApply rm nm rules cfg cal).1
                    (if f.etag = "" then hint else f.etag) W.put1 cfg).2 ++
                  (save_ics href (walkApply rm nm rules cfg cal2).1
                    f2.etag W.put2 cfg).2)

/-- The object loop of `main` (`for abs_href, etag in items:`) over a list
of (world, href, etag-hint) triples.  The loop body is a bare call, so an
uncaught exception from `patch_calendar_object` aborts the whole run. -/
def processItems (rm : String → String → Bool) (nm : String → String)
    (rules : List EventRule) (cfg : Config) :
    List (World × String × String) → Stats → Except String (Stats × List PutRequest)
  | [], s => Except.ok (s, [])
  | (W, href, hint) :: rest, s =>
    match patch_calendar_object rm nm rules W href hint cfg s with
    | Except.error e => Except.error e
    | Except.ok (s1, puts) =>
      match processItems rm nm rules cfg rest s1 with
      | Except.error e => Except.error e
      | Except.ok (s2, ps) => Except.ok (s2, puts ++ ps)

/-- One `<d:response>` entry of the PROPFIND multistatus body, after the
XML layer: the raw `href` text, whether a `propstat/prop` node was found,
and the raw `getcontenttype` / `getetag` texts (`""` when missing). -/
structure RespEntry where
  href : String
  hasProp : Bool
  ctype : String
  etag : String
deriving DecidableEq, Repr

/-- Whether a character list starts with a given pattern (helper for the
kernel-computable string operations below; the core `String` scanning
functions are compiled externals and do not reduce). -/
def listBeginsWith : List Char → List Char → Bool
  | [], _ => true
  | _ :: _, [] => false
  | p :: ps, c :: cs => (p = c) && listBeginsWith ps cs

/-- Whether a character list contains a given pattern as a contiguous
sublist. -/
def listContainsSub (pat : List Char) : List Char → Bool
  | [] => listBeginsWith pat []
  | c :: rest => listBeginsWith pat (c :: rest) || listContainsSub pat rest

/-- Python's `s.startswith(p)`. -/
def strStartsWith (s p : String) : Bool :=
  listBeginsWith p.data s.data

/-- Python's `s.endswith(p)`. -/
def strEndsWith (s p : String) : Bool :=
  listBeginsWith p.data.reverse s.data.reverse

/-- Python's `needle in hay` on strings. -/
def containsSub (hay needle : String) : Bool :=
  listContainsSub needle.data hay.data

/-- Python's `s.lower()` (ASCII range, which is all `getcontenttype`
values contain). -/
def toLowerStr (s : String) : String :=
  String.mk (s.data.map Char.toLower)

/-- Python's `text.strip(c)` for a single character: removes every leading
and trailing occurrence of `c`. -/
def stripChar (c : Char) (s : String) : String :=
  String.mk (((s.toList.dropWhile (fun x => x = c)).reverse.dropWhile
    (fun x => x = c)).reverse)

/-- Model of `build_origin(base_url)` building `scheme://netloc` over the parsed
base URL. -/
def build_origin (scheme netloc : String) : String :=
  scheme ++ "://" ++ netloc

/-- The absolute-URL construction of `propfind_calendar`: an `href` that
already starts with `http` passes through; anything else is prefixed with
the server origin (adding a leading `/` when missing), never with the
request URL. -/
def absHref (origin href : String) : String :=
  if strStartsWith href "http" then href
  else origin ++ (if strStartsWith href "/" then href else "/" ++ href)

/-- Whether the response-loop of `propfind_calendar` keeps an entry: a
`prop` node exists and the entry looks like an event resource
(`href.endswith(".ics") or "text/calendar" in ctype.lower()`). -/
def keepsEntry (e : RespEntry) : Bool :=
  e.hasProp && (strEndsWith e.href ".ics" ||
    containsSub (toLowerStr e.ctype) "text/calendar")

/-- The item-collection loop of `propfind_calendar(cfg, session)`: builds
the `(absolute_href, etag)` list, in response order, from the parsed
multistatus entries (the HTTP/XML layer is behind `RespEntry`). -/
def propfind_calendar (origin : String) : List RespEntry → List (String × String)
  | [] => []
  | e :: rest =>
    if e.hasProp = false then propfind_calendar origin rest
    else if strEndsWith e.href ".ics" ||
        containsSub (toLowerStr e.ctype) "text/calendar" then
      (absHref origin e.href, stripChar '\"' e.etag) :: propfind_calendar origin rest
    else propfind_calendar origin rest

lemma applyMatchedRule_summary (r : EventRule) (ev : VEvent) :
    ((applyMatchedRule r ev).1).summary = ev.summary := by
  simp only [applyMatchedRule]
  split_ifs <;> rfl

lemma applyMatchedRule_transp (r : EventRule) (ev : VEvent) :
    ((applyMatchedRule r ev).1).transp = some (desiredTransp r) := by
  by_cases h1 : ev.transp = some (desiredTransp r) <;>
    simp only [applyMatchedRule, h1] <;> split_ifs <;> simp_all

lemma applyMatchedRule_color_pos (r : EventRule) (ev : VEvent)
    (hc : r.color ≠ "") :
    ((applyMatchedRule r ev).1).color = some r.color := by
  by_cases h1 : ev.transp = some (desiredTransp r) <;>
    simp only [applyMatchedRule, h1] <;> split_ifs <;> simp_all

lemma applyMatchedRule_noop (r : EventRule) (ev : VEvent)
    (ht : ev.transp = some (desiredTransp r))
    (hc : r.color = "" ∨ ev.color = some r.color) :
    applyMatchedRule r ev = (ev, false) := by
  rcases hc with hc | hc <;> simp [applyMatchedRule, ht, hc]

lemma applyMatchedRule_idem (r : EventRule) (ev : VEvent) :
    applyMatchedRule r (applyMatchedRule r ev).1 = ((applyMatchedRule r ev).1, false) := by
  apply applyMatchedRule_noop
  · exact applyMatchedRule_transp r ev
  · by_cases hc : r.color = ""
    · exact Or.inl hc
    · exact Or.inr (applyMatchedRule_color_pos r ev hc)

lemma applyRulesAux_summary (rm : String → String → Bool) (title : String)
    (rules : List EventRule) (ev : VEvent) :
    ((applyRulesAux rm title rules ev).1).summary = ev.summary := by
  induction rules with
  | nil => rfl
  | cons r rest ih =>
    by_cases h : rm r.pattern title <;>
      simp [applyRulesAux, h, applyMatchedRule_summary, ih]

lemma applyRulesAux_not_matched (rm : String → String → Bool) (title : String)
    (rules : List EventRule) (ev : VEvent)
    (h : (applyRulesAux rm title rules ev).2.1 = false) :
    applyRulesAux rm title rules ev = (ev, false, false) := by
  induction rules with
  | nil => rfl
  | cons r rest ih =>
    by_cases hr : rm r.pattern title
    · simp [applyRulesAux, hr] at h
    · simp only [applyRulesAux, hr, Bool.false_eq_true, if_false] at h ⊢
      exact ih h

lemma applyRulesAux_idem (rm : String → String → Bool) (title : String)
    (rules : List EventRule) (ev : VEvent) :
    applyRulesAux rm title rules (applyRulesAux rm title rules ev).1 =
      ((applyRulesAux rm title rules ev).1,
       (applyRulesAux rm title rules ev).2.1, false) := by
  induction rules with
  | nil => rfl
  | cons r rest ih =>
    by_cases h : rm r.pattern title
    · simp only [applyRulesAux, h, if_true]
      rw [applyMatchedRule_idem]
    · simp only [applyRulesAux, h, Bool.false_eq_true, if_false]
      exact ih

lemma applyRulesAux_append (rm : String → String → Bool) (title : String)
    (rules1 rest : List EventRule) (ev : VEvent)
    (hpre : ∀ r' ∈ rules1, rm r'.pattern title = false) :
    applyRulesAux rm title (rules1 ++ rest) ev = applyRulesAux rm title rest ev := by
  induction rules1 with
  | nil => rfl
  | cons a l ih =>
    have ha : rm a.pattern title = false := hpre a (List.mem_cons_self a l)
    simp only [List.cons_append, applyRulesAux, ha, Bool.false_eq_true, if_false]
    exact ih (fun r' hr' => hpre r' (List.mem_cons_of_mem a hr'))

lemma apply_rules_not_matched (rm : String → String → Bool) (nm : String → String)
    (rules : List EventRule) (cfg : Config) (ev : VEvent)
    (h : (apply_rules_to_event rm nm rules cfg ev).2.1 = false) :
    apply_rules_to_event rm nm rules cfg ev = (ev, false, false) := by
  cases hs : ev.summary with
  | none => simp [apply_rules_to_event, hs]
  | some s =>
    simp only [apply_rules_to_event, hs] at h ⊢
    exact applyRulesAux_not_matched rm _ rules ev h

/-- C1: for every summary and every ordered rule list, `apply_rules_to_event`
evaluates the rules in declaration order; the first rule `r` whose pattern
matches the (possibly normalized) summary fully determines the result —
only `r`'s transparency and color are applied (`applyMatchedRule r ev`),
and the result is independent of every rule after `r` (the right-hand side
does not mention `rules2`). -/
theorem ruleEngine_first_match_wins
    (rm : String → String → Bool) (nm : String → String)
    (rules1 rules2 : List EventRule) (r : EventRule) (cfg : Config)
    (ev : VEvent) (s : String)
    (hs : ev.summary = some s)
    (hpre : ∀ r' ∈ rules1,
      rm r'.pattern (if cfg.normalize_summary then nm s else s) = false)
    (hr : rm r.pattern (if cfg.normalize_summary then nm s else s) = true) :
    apply_rules_to_event rm nm (rules1 ++ r :: rules2) cfg ev =
      ((applyMatchedRule r ev).1, true, (applyMatchedRule r ev).2) := by
  simp only [apply_rules_to_event, hs]
  rw [applyRulesAux_append rm _ rules1 (r :: rules2) ev hpre]
  simp [applyRulesAux, hr]

/-- C1 witness: with an exact-match oracle, summary `"B"`, a non-matching
first rule, a matching second rule and an overlapping third rule, the
result is exactly that of the second rule. -/
theorem ruleEngine_first_match_wins_witness :
    apply_rules_to_event (fun p t => p == t) id
      ([⟨"A", "red", false⟩] ++ ⟨"B", "blue", true⟩ :: [⟨"B", "green", false⟩])
      ⟨false, false, false⟩ ⟨some "B", none, none⟩ =
      ((applyMatchedRule ⟨"B", "blue", true⟩ ⟨some "B", none, none⟩).1, true,
       (applyMatchedRule ⟨"B", "blue", true⟩ ⟨some "B", none, none⟩).2) :=
  ruleEngine_first_match_wins _ _ _ _ _ _ _ _ rfl (by decide) rfl

/-- C8: classification is idempotent — applying `apply_rules_to_event` a
second time to an already-classified event changes nothing: the event is
returned unmodified (so re-serializing, a function of the model, yields
identical output), the matched flag is reproduced, and the second
application reports `changed = false`. -/
theorem classify_idempotent (rm : String → String → Bool) (nm : String → String)
    (rules : List EventRule) (cfg : Config) (ev : VEvent) :
    apply_rules_to_event rm nm rules cfg
        (apply_rules_to_event rm nm rules cfg ev).1 =
      ((apply_rules_to_event rm nm rules cfg ev).1,
       (apply_rules_to_event rm nm rules cfg ev).2.1, false) := by
  cases hs : ev.summary with
  | none => simp [apply_rules_to_event, hs]
  | some s =>
    have hsum : ((applyRulesAux rm (if cfg.normalize_summary then nm s else s)
        rules ev).1).summary = some s := by
      rw [applyRulesAux_summary]; exact hs
    simp only [apply_rules_to_event, hs, hsum]
    exact applyRulesAux_idem rm _ rules ev

/-- C9: an event with no `SUMMARY` property is returned unmodified with
`(matched, changed) = (false, false)`, for every rule list, oracle and
configuration. -/
theorem no_summary_unmodified (rm : String → String → Bool) (nm : String → String)
    (rules : List EventRule) (cfg : Config) (ev : VEvent)
    (h : ev.summary = none) :
    apply_rules_to_event rm nm rules cfg ev = (ev, false, false) := by
  simp [apply_rules_to_event, h]

/-- C9 witness: a summary-less event with a color, against the real `RULES`
list and an exact-match oracle, is untouched. -/
theorem no_summary_unmodified_witness :
    apply_rules_to_event (fun p t => p == t) id RULES {} ⟨none, none, some "red"⟩ =
      (⟨none, none, some "red"⟩, false, false) :=
  no_summary_unmodified _ _ _ _ _ rfl

lemma walkApply_no_match (rm : String → String → Bool) (nm : String → String)
    (rules : List EventRule) (cfg : Config) (cal : Cal)
    (h : (walkApply rm nm rules cfg cal).2.1 = 0) :
    (walkApply rm nm rules cfg cal).1 = cal := by
  induction cal with
  | nil => rfl
  | cons c rest ih =>
    cases c with
    | other n =>
      simp only [walkApply] at h ⊢
      exact congrArg _ (ih h)
    | vevent ev =>
      simp only [walkApply] at h ⊢
      by_cases hm : (apply_rules_to_event rm nm rules cfg ev).2.1 = true
      · simp [hm] at h
      · have hm' : (apply_rules_to_event rm nm rules cfg ev).2.1 = false :=
          Bool.eq_false_iff.mpr hm
        simp only [hm', Bool.false_eq_true, if_false] at h
        rw [apply_rules_not_matched rm nm rules cfg ev hm']
        simp [ih h]

/-- C6: when no rule matches any `VEVENT` of a calendar object (including
objects with zero `VEVENT`s), `patch_calendar_object` only bumps the
`checked` counter and issues zero PUT requests, and the classification pass
left every component of the object unmodified. -/
theorem unmatched_no_write (rm : String → String → Bool) (nm : String → String)
    (rules : List EventRule) (W : World) (href hint : String) (cfg : Config)
    (s : Stats) (f : Fetched) (cal : Cal)
    (hget : W.get1 = Except.ok f) (hparse : f.parse = Except.ok cal)
    (hm : (walkApply rm nm rules cfg cal).2.1 = 0) :
    patch_calendar_object rm nm rules W href hint cfg s =
      Except.ok ({ s with checked := s.checked + 1 }, []) ∧
    (walkApply rm nm rules cfg cal).1 = cal := by
  constructor
  · simp only [patch_calendar_object, hget, hparse, hm, if_pos]
  · exact walkApply_no_match rm nm rules cfg cal hm

/-- Exact-string-equality instance of the regex oracle, used by the
concrete witnesses and counterexamples. -/
def rmE : String → String → Bool := fun p t => p == t

/-- A calendar body whose only event matches no rule below. -/
def calLunch : Cal := [Comp.other "VCALENDAR", Comp.vevent ⟨some "Lunch", none, none⟩]

/-- World for the C6 witness: first GET succeeds with `calLunch`. -/
def Wlunch : World :=
  ⟨Except.ok ⟨Except.ok calLunch, "e1"⟩, 204, Except.ok ⟨Except.ok calLunch, "e1"⟩, 204⟩

/-- C6 witness: an object whose single event `"Lunch"` matches no rule is
only counted as checked; no PUT is issued and the body is unchanged. -/
theorem unmatched_no_write_witness :
    patch_calendar_object rmE id [⟨"Focus", "blue", true⟩] Wlunch
        "https://h/cal/a.ics" "t0" {} {} =
      Except.ok ({ ({} : Stats) with checked := ({} : Stats).checked + 1 }, []) ∧
    (walkApply rmE id [⟨"Focus", "blue", true⟩] {} calLunch).1 = calLunch :=
  unmatched_no_write rmE id _ Wlunch _ _ {} {} _ calLunch rfl rfl rfl

lemma patch_parse_error (rm : String → String → Bool) (nm : String → String)
    (rules : List EventRule) (W : World) (href hint : String) (cfg : Config)
    (s : Stats) (f : Fetched) (e : String)
    (hget : W.get1 = Except.ok f) (hparse : f.parse = Except.error e) :
    patch_calendar_object rm nm rules W href hint cfg s = Except.error e := by
  simp only [patch_calendar_object, hget, hparse]

/-- C4 amended: a structurally malformed body on the first fetch of an
object is NOT a per-object error — the `Calendar.from_ical` call sits
outside every try/except, so the parse error escapes
`patch_calendar_object` and aborts the whole run (every remaining object
is left unprocessed); only an HTTP error on the GET is a per-object skip. -/
theorem parse_error_aborts_run (rm : String → String → Bool) (nm : String → String)
    (rules : List EventRule) (cfg : Config) (W : World) (href hint : String)
    (rest : List (World × String × String)) (s : Stats) (f : Fetched) (e : String)
    (hget : W.get1 = Except.ok f) (hparse : f.parse = Except.error e) :
    processItems rm nm rules cfg ((W, href, hint) :: rest) s = Except.error e := by
  have hp := patch_parse_error rm nm rules W href hint cfg s f e hget hparse
  simp only [processItems, hp]

/-- World delivering a malformed first body. -/
def Wmalformed : World :=
  ⟨Except.ok ⟨Except.error "malformed ics", "e1"⟩, 204,
   Except.ok ⟨Except.error "malformed ics", "e1"⟩, 204⟩

/-- World delivering a well-formed body with one matching event. -/
def Wfocus : World :=
  ⟨Except.ok ⟨Except.ok [Comp.vevent ⟨some "Focus", none, none⟩], "e2"⟩, 204,
   Except.ok ⟨Except.ok [Comp.vevent ⟨some "Focus", none, none⟩], "e2"⟩, 204⟩

/-- C4 counterexample: a run over two objects whose first has a malformed
body does NOT skip it and continue — the whole run aborts with the parse
error, and the second (perfectly processable, matching) object is never
touched; had the loop continued, the result would be `Except.ok` with its
PUT recorded.  This refutes the claim that parsing failure is a per-object
error that never aborts the run. -/
theorem parse_error_aborts_run_cex :
    processItems rmE id [⟨"Focus", "blue", true⟩] {}
        [(Wmalformed, "https://h/cal/a.ics", ""), (Wfocus, "https://h/cal/b.ics", "")]
        {} =
      Except.error "malformed ics" := rfl

/-- C4 witness (for the amended claim): applying the theorem at the same
concrete input. -/
theorem parse_error_aborts_run_witness :
    processItems rmE id [⟨"Focus", "blue", true⟩] {}
        [(Wmalformed, "https://h/cal/a.ics", "")] {} =
      Except.error "malformed ics" :=
  parse_error_aborts_run rmE id _ {} Wmalformed _ _ [] {} _ _ rfl rfl

lemma patch_retry_eq (rm : String → String → Bool) (nm : String → String)
    (rules : List EventRule) (W : World) (href hint : String) (cfg : Config)
    (s : Stats) (f : Fetched) (cal : Cal) (f2 : Fetched) (cal2 : Cal)
    (hget : W.get1 = Except.ok f) (hparse : f.parse = Except.ok cal)
    (hm : ¬ (walkApply rm nm rules cfg cal).2.1 = 0)
    (hch : ¬ ((walkApply rm nm rules cfg cal).2.2 = 0 ∧ cfg.force = false))
    (hdry : cfg.dry_run = false)
    (hfail : okStatus W.put1 = false)
    (hget2 : W.get2 = Except.ok f2) (hparse2 : f2.parse = Except.ok cal2) :
    patch_calendar_object rm nm rules W href hint cfg s =
      Except.ok
        ((if okStatus W.put2 then
            { s with matched_files := s.matched_files + 1, updated_files := s.updated_files + 1 }
          else
            { s with matched_files := s.matched_files + 1, failed_put := s.failed_put + 1 }),
         [⟨href, (walkApply rm nm rules cfg cal).1,
            ifMatchValue (if f.etag = "" then hint else f.etag)⟩,
          ⟨href, (walkApply rm nm rules cfg cal2).1, ifMatchValue f2.etag⟩]) := by
  simp only [patch_calendar_object, hget, hparse, hm, hch, save_ics, hdry,
    Bool.false_eq_true, if_false, hfail, hget2, hparse2]
  by_cases h2 : okStatus W.put2 <;> simp [h2]

/-- C3 amended: `save_ics` collapses conflict (412) and every other
non-success status into a single boolean failure (the three outcome
classes are distinguished only in its log lines), and
`patch_calendar_object` enters the re-fetch/re-classify/re-store cycle on
ANY failed first store — a non-412 `WriteError` status does not terminate
processing of the object; a second PUT is still issued. -/
theorem retry_on_any_failed_store (rm : String → String → Bool) (nm : String → String)
    (rules : List EventRule) (W : World) (href hint : String) (cfg : Config)
    (s : Stats) (f : Fetched) (cal : Cal) (f2 : Fetched) (cal2 : Cal)
    (hget : W.get1 = Except.ok f) (hparse : f.parse = Except.ok cal)
    (hm : ¬ (walkApply rm nm rules cfg cal).2.1 = 0)
    (hch : ¬ ((walkApply rm nm rules cfg cal).2.2 = 0 ∧ cfg.force = false))
    (hdry : cfg.dry_run = false)
    (hfail : okStatus W.put1 = false)
    (hget2 : W.get2 = Except.ok f2) (hparse2 : f2.parse = Except.ok cal2) :
    ∃ s' p1 p2, patch_calendar_object rm nm rules W href hint cfg s =
      Except.ok (s', [p1, p2]) := by
  refine ⟨_, _, _, patch_retry_eq rm nm rules W href hint cfg s f cal f2 cal2
    hget hparse hm hch hdry hfail hget2 hparse2⟩

/-- World for the C3 counterexample: one matching, changing event; the
first PUT fails with status 500 (a `WriteError`, not a 412 conflict); the
re-fetch succeeds and the second PUT returns 204. -/
def Wwrite500 : World :=
  ⟨Except.ok ⟨Except.ok [Comp.vevent ⟨some "Focus", none, none⟩], "e1"⟩, 500,
   Except.ok ⟨Except.ok [Comp.vevent ⟨some "Focus", none, none⟩], "e3"⟩, 204⟩

/-- C3 counterexample: after a first store failing with status 500 — an
outcome the claim classes as `WriteError`, requiring termination with no
retry — the code still re-fetches and issues a second PUT (two PUT requests
appear, and the object is even counted as updated).  This refutes the
claim that the retry cycle is entered only on precondition-failed. -/
theorem retry_on_any_failed_store_cex :
    patch_calendar_object rmE id [⟨"Focus", "blue", true⟩] Wwrite500
        "https://h/cal/a.ics" "" {} {} =
      Except.ok ({ ({} : Stats) with matched_files := 1, updated_files := 1 },
        [⟨"https://h/cal/a.ics",
           [Comp.vevent ⟨some "Focus", some "TRANSPARENT", some "blue"⟩],
           "\"e1\""⟩,
         ⟨"https://h/cal/a.ics",
           [Comp.vevent ⟨some "Focus", some "TRANSPARENT", some "blue"⟩],
           "\"e3\""⟩]) := rfl

/-- C3 witness (for the amended claim): the theorem applied at the
concrete 500-status world. -/
theorem retry_on_any_failed_store_witness :
    ∃ s' p1 p2, patch_calendar_object rmE id [⟨"Focus", "blue", true⟩] Wwrite500
        "https://h/cal/a.ics" "" {} {} = Except.ok (s', [p1, p2]) :=
  retry_on_any_failed_store rmE id _ Wwrite500 _ _ {} {} _ _ _ _
    rfl rfl (by decide) (by decide) rfl rfl rfl rfl

/-- C5 amended: in the conflict-retry path the code never checks for a
diff — after the re-fetch and re-classification it always issues the
second PUT, even when the freshly fetched body already carries the desired
transparency and color on every event (re-classification is the identity
on it); on success the object is counted as updated. -/
theorem conflict_retry_always_writes (rm : String → String → Bool) (nm : String → String)
    (rules : List EventRule) (W : World) (href hint : String) (cfg : Config)
    (s : Stats) (f : Fetched) (cal : Cal) (f2 : Fetched) (cal2 : Cal)
    (hget : W.get1 = Except.ok f) (hparse : f.parse = Except.ok cal)
    (hm : ¬ (walkApply rm nm rules cfg cal).2.1 = 0)
    (hch : ¬ ((walkApply rm nm rules cfg cal).2.2 = 0 ∧ cfg.force = false))
    (hdry : cfg.dry_run = false)
    (hfail : okStatus W.put1 = false)
    (hget2 : W.get2 = Except.ok f2) (hparse2 : f2.parse = Except.ok cal2)
    (hnd : (walkApply rm nm rules cfg cal2).1 = cal2)
    (hp2 : okStatus W.put2 = true) :
    patch_calendar_object rm nm rules W href hint cfg s =
      Except.ok
        ({ s with matched_files := s.matched_files + 1, updated_files := s.updated_files + 1 },
         [⟨href, (walkApply rm nm rules cfg cal).1,
            ifMatchValue (if f.etag = "" then hint else f.etag)⟩,
          ⟨href, cal2, ifMatchValue f2.etag⟩]) := by
  rw [patch_retry_eq rm nm rules W href hint cfg s f cal f2 cal2
    hget hparse hm hch hdry hfail hget2 hparse2]
  rw [hnd, hp2]
  simp

/-- World for the C5 counterexample: the first PUT returns 412; the
re-fetched body already carries `TRANSP:TRANSPARENT` and `COLOR:blue`
(someone else applied the same rule), so re-classification finds no diff;
the second PUT returns 204. -/
def Wconflict : World :=
  ⟨Except.ok ⟨Except.ok [Comp.vevent ⟨some "Focus", none, none⟩], "e1"⟩, 412,
   Except.ok ⟨Except.ok [Comp.vevent ⟨some "Focus", some "TRANSPARENT", some "blue"⟩],
     "e3"⟩, 204⟩

/-- C5 counterexample: even though the re-fetched body already has the
desired transparency and color (the second classification finds no diff),
a second PUT request IS issued — the result contains two PUT requests, the
second carrying the unchanged body.  This refutes the claim that no second
write request is issued in that situation. -/
theorem conflict_retry_always_writes_cex :
    patch_calendar_object rmE id [⟨"Focus", "blue", true⟩] Wconflict
        "https://h/cal/a.ics" "" {} {} =
      Except.ok ({ ({} : Stats) with matched_files := 1, updated_files := 1 },
        [⟨"https://h/cal/a.ics",
           [Comp.vevent ⟨some "Focus", some "TRANSPARENT", some "blue"⟩],
           "\"e1\""⟩,
         ⟨"https://h/cal/a.ics",
           [Comp.vevent ⟨some "Focus", some "TRANSPARENT", some "blue"⟩],
           "\"e3\""⟩]) := rfl

/-- C5 witness (for the amended claim): the theorem applied at the
concrete 412-then-already-classified world. -/
theorem conflict_retry_always_writes_witness :
    patch_calendar_object rmE id [⟨"Focus", "blue", true⟩] Wconflict
        "https://h/cal/a.ics" "" {} {} =
      Except.ok
        ({ ({} : Stats) with matched_files := ({} : Stats).matched_files + 1, updated_files := ({} : Stats).updated_files + 1 },
         [⟨"https://h/cal/a.ics",
            (walkApply rmE id [⟨"Focus", "blue", true⟩] {}
              [Comp.vevent ⟨some "Focus", none, none⟩]).1,
            ifMatchValue "e1"⟩,
          ⟨"https://h/cal/a.ics",
            [Comp.vevent ⟨some "Focus", some "TRANSPARENT", some "blue"⟩],
            ifMatchValue "e3"⟩]) :=
  conflict_retry_always_writes rmE id _ Wconflict _ _ {} {} _ _ _ _
    rfl rfl (by decide) (by decide) rfl rfl rfl rfl rfl rfl

/-- C2: for every calendar object, `patch_calendar_object` issues at most
two PUT requests in total — i.e. at most one
re-fetch/re-classify/re-store cycle after a failed first store — and when
both stores were attempted (two PUTs) and the second one also failed, the
object is recorded once in `failed_put` (and not as updated); the function
returns, so no further attempt is made on the object within the run. -/
theorem patch_bounded_retry (rm : String → String → Bool) (nm : String → String)
    (rules : List EventRule) (W : World) (href hint : String) (cfg : Config)
    (s : Stats) (s' : Stats) (puts : List PutRequest)
    (h : patch_calendar_object rm nm rules W href hint cfg s = Except.ok (s', puts)) :
    puts.length ≤ 2 ∧
    (cfg.dry_run = false → okStatus W.put2 = false → puts.length = 2 →
      s'.failed_put = s.failed_put + 1 ∧ s'.updated_files = s.updated_files) := by
  unfold patch_calendar_object at h
  split at h
  · simp only [Except.ok.injEq, Prod.mk.injEq] at h
    obtain ⟨rfl, rfl⟩ := h
    simp
  · rename_i f heq1
    split at h
    · exact Except.noConfusion h
    · rename_i cal heq2
      generalize (if f.etag = "" then hint else f.etag) = et at h
      split at h
      · simp only [Except.ok.injEq, Prod.mk.injEq] at h
        obtain ⟨rfl, rfl⟩ := h
        simp
      · split at h
        · simp only [Except.ok.injEq, Prod.mk.injEq] at h
          obtain ⟨rfl, rfl⟩ := h
          simp
        · split at h
          · simp only [Except.ok.injEq, Prod.mk.injEq] at h
            obtain ⟨rfl, rfl⟩ := h
            constructor
            · simp only [save_ics]
              split_ifs <;> simp
            · intro hdry _ hlen
              simp [save_ics, hdry] at hlen
          · split at h
            · simp only [Except.ok.injEq, Prod.mk.injEq] at h
              obtain ⟨rfl, rfl⟩ := h
              constructor
              · simp only [save_ics]
                split_ifs <;> simp
              · intro hdry _ hlen
                simp [save_ics, hdry] at hlen
            · rename_i f2 heq3
              split at h
              · simp only [Except.ok.injEq, Prod.mk.injEq] at h
                obtain ⟨rfl, rfl⟩ := h
                constructor
                · simp only [save_ics]
                  split_ifs <;> simp
                · intro hdry _ hlen
                  simp [save_ics, hdry] at hlen
              · rename_i cal2 heq4
                split at h
                · rename_i hs2
                  simp only [Except.ok.injEq, Prod.mk.injEq] at h
                  obtain ⟨rfl, rfl⟩ := h
                  constructor
                  · simp only [save_ics, List.length_append]
                    split_ifs <;> simp
                  · intro hdry hp2 _
                    simp [save_ics, hdry, hp2] at hs2
                · simp only [Except.ok.injEq, Prod.mk.injEq] at h
                  obtain ⟨rfl, rfl⟩ := h
                  constructor
                  · simp only [save_ics, List.length_append]
                    split_ifs <;> simp
                  · intro _ _ _
                    constructor <;> rfl

/-- World for the C2 witness: matching changing event, both PUTs fail
(412 then 412). -/
def Wfail2 : World :=
  ⟨Except.ok ⟨Except.ok [Comp.vevent ⟨some "Focus", none, none⟩], "e1"⟩, 412,
   Except.ok ⟨Except.ok [Comp.vevent ⟨some "Focus", none, none⟩], "e3"⟩, 412⟩

/-- The two PUT requests `Wfail2` provokes. -/
def putsFail2 : List PutRequest :=
  [⟨"https://h/cal/a.ics",
     [Comp.vevent ⟨some "Focus", some "TRANSPARENT", some "blue"⟩], "\"e1\""⟩,
   ⟨"https://h/cal/a.ics",
     [Comp.vevent ⟨some "Focus", some "TRANSPARENT", some "blue"⟩], "\"e3\""⟩]

/-- Stats after processing `Wfail2`: matched once, one failed put. -/
def statsFail2 : Stats := ⟨0, 1, 0, 0, 1⟩

/-- C2 witness: the theorem applied at the two-failed-PUTs world — exactly
two PUTs issued and exactly one `failed_put` recorded. -/
theorem patch_bounded_retry_witness :
    putsFail2.length ≤ 2 ∧
    (statsFail2.failed_put = ({} : Stats).failed_put + 1 ∧
     statsFail2.updated_files = ({} : Stats).updated_files) :=
  ⟨(patch_bounded_retry rmE id [⟨"Focus", "blue", true⟩] Wfail2 "https://h/cal/a.ics"
      "" {} {} statsFail2 putsFail2 rfl).1,
   (patch_bounded_retry rmE id [⟨"Focus", "blue", true⟩] Wfail2 "https://h/cal/a.ics"
      "" {} {} statsFail2 putsFail2 rfl).2 rfl rfl rfl⟩

/-- C10: the entity tag a store is conditioned on is never an empty-tag
precondition and the write is never unconditional: when the tag available
at write time is empty the request carries `If-Match: *`.  On the first
attempt the tag is the fetch response's, falling back to the listing hint
(`etag = etag or etag_hint`), so the first PUT carries `*` exactly when
both are empty; the retry PUT uses only the re-fetch's tag (no hint
fallback), so it carries `*` exactly when `f2.etag` is empty. -/
theorem empty_etag_if_match_star (rm : String → String → Bool) (nm : String → String)
    (rules : List EventRule) (W : World) (href hint : String) (cfg : Config)
    (s : Stats) (s' : Stats) (puts : List PutRequest) (f : Fetched) (cal : Cal)
    (hget : W.get1 = Except.ok f) (hparse : f.parse = Except.ok cal)
    (hdry : cfg.dry_run = false)
    (h : patch_calendar_object rm nm rules W href hint cfg s = Except.ok (s', puts)) :
    (∀ q, f.etag = "" → hint = "" → puts.head? = some q → q.ifMatch = "*") ∧
    (∀ f2 cal2 q, W.get2 = Except.ok f2 → f2.parse = Except.ok cal2 →
      f2.etag = "" → puts[1]? = some q → q.ifMatch = "*") := by
  simp only [patch_calendar_object, hget, hparse] at h
  generalize hET : (if f.etag = "" then hint else f.etag) = et at h
  split at h
  · simp only [Except.ok.injEq, Prod.mk.injEq] at h
    obtain ⟨rfl, rfl⟩ := h
    constructor
    · intro q _ _ hq
      simp at hq
    · intro f2 cal2 q _ _ _ hq
      simp at hq
  · split at h
    · simp only [Except.ok.injEq, Prod.mk.injEq] at h
      obtain ⟨rfl, rfl⟩ := h
      constructor
      · intro q _ _ hq
        simp at hq
      · intro f2 cal2 q _ _ _ hq
        simp at hq
    · split at h
      · simp only [Except.ok.injEq, Prod.mk.injEq] at h
        obtain ⟨rfl, rfl⟩ := h
        constructor
        · intro q hE hH hq
          have het : et = "" := by
            rw [hE, hH] at hET
            simpa using hET.symm
          simp only [save_ics, hdry, Bool.false_eq_true, if_false,
            List.head?_cons, Option.some.injEq] at hq
          rw [← hq, het]
          rfl
        · intro f2 cal2 q _ _ _ hq
          simp [save_ics, hdry] at hq
      · split at h
        · simp only [Except.ok.injEq, Prod.mk.injEq] at h
          obtain ⟨rfl, rfl⟩ := h
          rename_i e heqg2
          constructor
          · intro q hE hH hq
            have het : et = "" := by
              rw [hE, hH] at hET
              simpa using hET.symm
            simp only [save_ics, hdry, Bool.false_eq_true, if_false,
              List.head?_cons, Option.some.injEq] at hq
            rw [← hq, het]
            rfl
          · intro f2 cal2 q hget2 _ _ _
            rw [hget2] at heqg2
            exact Except.noConfusion heqg2
        · rename_i f2x heqg2
          split at h
          · simp only [Except.ok.injEq, Prod.mk.injEq] at h
            obtain ⟨rfl, rfl⟩ := h
            rename_i e2 heqp2
            constructor
            · intro q hE hH hq
              have het : et = "" := by
                rw [hE, hH] at hET
                simpa using hET.symm
              simp only [save_ics, hdry, Bool.false_eq_true, if_false,
                List.head?_cons, Option.some.injEq] at hq
              rw [← hq, het]
              rfl
            · intro f2 cal2 q hget2 hparse2 _ _
              rw [hget2] at heqg2
              injection heqg2 with hf
              subst hf
              rw [hparse2] at heqp2
              exact Except.noConfusion heqp2
          · rename_i cal2x heqp2
            split at h
            · simp only [Except.ok.injEq, Prod.mk.injEq] at h
              obtain ⟨rfl, rfl⟩ := h
              constructor
              · intro q hE hH hq
                have het : et = "" := by
                  rw [hE, hH] at hET
                  simpa using hET.symm
                simp only [save_ics, hdry, Bool.false_eq_true, if_false,
                  List.cons_append, List.nil_append, List.head?_cons,
                  Option.some.injEq] at hq
                rw [← hq, het]
                rfl
              · intro f2 cal2 q hget2 _ hE2 hq
                rw [hget2] at heqg2
                injection heqg2 with hf
                subst hf
                simp only [save_ics, hdry, Bool.false_eq_true, if_false,
                  List.cons_append, List.nil_append] at hq
                simp only [List.getElem?_cons_succ, List.getElem?_cons_zero,
                  Option.some.injEq] at hq
                rw [← hq, hE2]
                rfl
            · simp only [Except.ok.injEq, Prod.mk.injEq] at h
              obtain ⟨rfl, rfl⟩ := h
              constructor
              · intro q hE hH hq
                have het : et = "" := by
                  rw [hE, hH] at hET
                  simpa using hET.symm
                simp only [save_ics, hdry, Bool.false_eq_true, if_false,
                  List.cons_append, List.nil_append, List.head?_cons,
                  Option.some.injEq] at hq
                rw [← hq, het]
                rfl
              · intro f2 cal2 q hget2 _ hE2 hq
                rw [hget2] at heqg2
                injection heqg2 with hf
                subst hf
                simp only [save_ics, hdry, Bool.false_eq_true, if_false,
                  List.cons_append, List.nil_append] at hq
                simp only [List.getElem?_cons_succ, List.getElem?_cons_zero,
                  Option.some.injEq] at hq
                rw [← hq, hE2]
                rfl

/-- World for the C10 witness: neither GET returns an `ETag` header, the
listing hint is empty too, and both PUTs fail with 412. -/
def Wstar : World :=
  ⟨Except.ok ⟨Except.ok [Comp.vevent ⟨some "Focus", none, none⟩], ""⟩, 412,
   Except.ok ⟨Except.ok [Comp.vevent ⟨some "Focus", some "TRANSPARENT", some "blue"⟩],
     ""⟩, 412⟩

/-- The classified body the `Wstar` run uploads. -/
def calStar : Cal := [Comp.vevent ⟨some "Focus", some "TRANSPARENT", some "blue"⟩]

/-- C10 witness: with no tag available anywhere, both the first PUT and the
retry PUT of the concrete `Wstar` run carry `If-Match: *`. -/
theorem empty_etag_if_match_star_witness :
    (⟨"https://h/cal/a.ics", calStar, "*"⟩ : PutRequest).ifMatch = "*" ∧
    (⟨"https://h/cal/a.ics", calStar, "*"⟩ : PutRequest).ifMatch = "*" :=
  ⟨(empty_etag_if_match_star rmE id [⟨"Focus", "blue", true⟩] Wstar
      "https://h/cal/a.ics" "" {} {} ⟨0, 1, 0, 0, 1⟩
      [⟨"https://h/cal/a.ics", calStar, "*"⟩, ⟨"https://h/cal/a.ics", calStar, "*"⟩]
      ⟨Except.ok [Comp.vevent ⟨some "Focus", none, none⟩], ""⟩
      [Comp.vevent ⟨some "Focus", none, none⟩]
      rfl rfl rfl rfl).1
      ⟨"https://h/cal/a.ics", calStar, "*"⟩ rfl rfl rfl,
   (empty_etag_if_match_star rmE id [⟨"Focus", "blue", true⟩] Wstar
      "https://h/cal/a.ics" "" {} {} ⟨0, 1, 0, 0, 1⟩
      [⟨"https://h/cal/a.ics", calStar, "*"⟩, ⟨"https://h/cal/a.ics", calStar, "*"⟩]
      ⟨Except.ok [Comp.vevent ⟨some "Focus", none, none⟩], ""⟩
      [Comp.vevent ⟨some "Focus", none, none⟩]
      rfl rfl rfl rfl).2
      ⟨Except.ok calStar, ""⟩ calStar
      ⟨"https://h/cal/a.ics", calStar, "*"⟩ rfl rfl rfl rfl⟩

lemma propfind_mem (origin : String) (entries : List RespEntry) (pr : String × String)
    (hpr : pr ∈ propfind_calendar origin entries) :
    ∃ e, e ∈ entries ∧ keepsEntry e = true ∧
      pr = (absHref origin e.href, stripChar '\"' e.etag) := by
  induction entries with
  | nil => simp [propfind_calendar] at hpr
  | cons e rest ih =>
    by_cases hp : e.hasProp = false
    · simp only [propfind_calendar] at hpr
      rw [if_pos hp] at hpr
      obtain ⟨e', he', hk', hpr'⟩ := ih hpr
      exact ⟨e', List.mem_cons_of_mem e he', hk', hpr'⟩
    · have hp' : e.hasProp = true := by
        cases hhp : e.hasProp
        · exact absurd hhp hp
        · rfl
      by_cases hk : (strEndsWith e.href ".ics" ||
          containsSub (toLowerStr e.ctype) "text/calendar") = true
      · simp only [propfind_calendar] at hpr
        rw [if_neg hp, if_pos hk] at hpr
        rcases List.mem_cons.mp hpr with hpr | hpr
        · exact ⟨e, List.mem_cons_self e rest, by simp [keepsEntry, hp', hk], hpr⟩
        · obtain ⟨e', he', hk', hpr'⟩ := ih hpr
          exact ⟨e', List.mem_cons_of_mem e he', hk', hpr'⟩
      · simp only [propfind_calendar] at hpr
        rw [if_neg hp, if_neg hk] at hpr
        obtain ⟨e', he', hk', hpr'⟩ := ih hpr
        exact ⟨e', List.mem_cons_of_mem e he', hk', hpr'⟩

lemma propfind_length (origin : String) (entries : List RespEntry) :
    (propfind_calendar origin entries).length =
      (entries.filter keepsEntry).length := by
  induction entries with
  | nil => rfl
  | cons e rest ih =>
    by_cases hp : e.hasProp = false
    · have hke : keepsEntry e = false := by simp [keepsEntry, hp]
      simp only [propfind_calendar]
      rw [if_pos hp, ih]
      simp [List.filter_cons, hke]
    · have hp' : e.hasProp = true := by
        cases hhp : e.hasProp
        · exact absurd hhp hp
        · rfl
      by_cases hk : (strEndsWith e.href ".ics" ||
          containsSub (toLowerStr e.ctype) "text/calendar") = true
      · have hke : keepsEntry e = true := by simp [keepsEntry, hp', hk]
        simp only [propfind_calendar]
        rw [if_neg hp, if_pos hk]
        simp [List.filter_cons, hke, ih]
      · have hke : keepsEntry e = false := by
          simp only [keepsEntry, hp', Bool.true_and]
          exact Bool.eq_false_iff.mpr hk
        simp only [propfind_calendar]
        rw [if_neg hp, if_neg hk]
        simp [List.filter_cons, hke, ih]

/-- C7 amended: every pair `propfind_calendar` returns comes from one
qualifying response entry, with its location made absolute against the
server origin via `absHref` (an already-absolute `href` passes through;
anything else is prefixed with the origin, never with the request URL, so
no double-prefixing) and its entity tag quote-stripped — but the sequence
is NOT deduplicated: the output has exactly one pair per qualifying entry,
so duplicate entries in the response yield duplicate pairs. -/
theorem propfind_absolute_no_dedup (origin : String) (entries : List RespEntry)
    (pr : String × String)
    (hpr : pr ∈ propfind_calendar origin entries) :
    (∃ e, e ∈ entries ∧ keepsEntry e = true ∧
      pr = (absHref origin e.href, stripChar '\"' e.etag)) ∧
    (propfind_calendar origin entries).length =
      (entries.filter keepsEntry).length :=
  ⟨propfind_mem origin entries pr hpr, propfind_length origin entries⟩

/-- A multistatus entry as Nextcloud would return it for one event. -/
def dupEntry : RespEntry :=
  ⟨"/cal/a.ics", true, "text/calendar; charset=utf-8", "\"t1\""⟩

/-- C7 counterexample: a PROPFIND response that lists the same calendar
object twice produces two identical `(location, etag)` pairs — the
returned sequence is NOT deduplicated, refuting the claim's deduplication
part (the absolute-location part does hold, as the amended theorem shows). -/
theorem propfind_no_dedup_cex :
    propfind_calendar "https://h" [dupEntry, dupEntry] =
      [("https://h/cal/a.ics", "t1"), ("https://h/cal/a.ics", "t1")] := by
  decide

/-- C7 witness: the amended theorem applied to a concrete singleton
response. -/
theorem propfind_absolute_no_dedup_witness :
    (∃ e, e ∈ [dupEntry] ∧ keepsEntry e = true ∧
      (("https://h/cal/a.ics", "t1") : String × String) =
        (absHref "https://h" e.href, stripChar '\"' e.etag)) ∧
    (propfind_calendar "https://h" [dupEntry]).length =
      ([dupEntry].filter keepsEntry).length :=
  propfind_absolute_no_dedup "https://h" [dupEntry] ("https://h/cal/a.ics", "t1")
    (by decide)
